import Mathlib

/-!
Shallow embedding of the currency-rates import service (`src/app.py`).

Conventions of the embedding:
* Python `Decimal` values are embedded as exact rationals (`ℚ`); incoming
  rates are finite decimal literals, hence rationals.  `Decimal.quantize`
  with exponent `0.00000001` under Python's default rounding
  (`ROUND_HALF_EVEN`) is embedded as `quantize8` below.  The default
  division context (28 significant digits) is assumed wide enough that
  dividing first and quantizing afterwards agrees with quantizing the
  exact quotient, which holds for all realistic rate values.
* `datetime.date` values are embedded as day numbers (`Nat`); the order on
  day numbers is the chronological order used by `end < start` in the code.
  ISO-string parsing (`_parse_date`) is treated as already done.
* Python strings subject to character-level processing (`strip`, `upper`,
  the regex `[A-Z]{3}`) are embedded as `List Char`.
* The MySQL tables are embedded as in-memory lists of rows; `INSERT IGNORE`
  and `INSERT ... ON DUPLICATE KEY UPDATE` are embedded by the
  corresponding key-directed list operations (`insertIgnore`, `upsertOne`).
  A rolled-back transaction leaves the initial `DB` value unchanged.
* Network and storage side effects are recorded as an `Event` trace so that
  statements such as "fails before any network call" can be expressed.
  The upstream JSON responses are parameters of the import functions
  (the upstream service is a black box).
-/

/-- Calendar dates, as day numbers (chronologically ordered). -/
abbrev Date := Nat

/-- The error kinds raised by `app.py` via `HTTPException`, named after the
spec's error taxonomy.  The comments give the status/detail of the source. -/
inductive Err where
  /-- Status 400 "Code ISO devise invalide" (`_safe_iso`). -/
  | invalidFormat
  /-- Status 400 "Devise ... non supportée" (`_ensure_parites_row_for_target`). -/
  | unsupportedCurrency
  /-- Status 400 "La date de fin doit etre >= date de debut" (`api_import_range`). -/
  | invalidRange
  /-- Status 502 "Taux absent dans la réponse" (`_get_latest_rate`). -/
  | upstreamMissingRate
  /-- Status 502 "Date absente dans la réponse" (`_get_latest_rate`). -/
  | upstreamMissingDate
  /-- Status 502 "Aucune parité retournée sur la période" (`_get_timeseries_rates`). -/
  | upstreamEmptyRange
  /-- Status 502 "Taux 0 (division impossible)" (`api_import_day`). -/
  | zeroRate
  /-- Status 500 "PARITES_CODE ... introuvable" (`_ensure_parites_row_for_target`). -/
  | codeNotFound
  deriving DecidableEq, Repr

/-- `PARITES_DICT` of `app.py`: ISO code → (label, one-character code). -/
def PARITES_DICT : List (List Char × String × Char) :=
  [("USD".data, ("Dollar américain", '$')),
   ("GBP".data, ("Livre sterling", 'L')),
   ("JPY".data, ("Yen japonais", 'J')),
   ("CHF".data, ("Franc suisse", '0')),
   ("CAD".data, ("Dollar canadien", 'C')),
   ("AUD".data, ("Dollar australien", 'A')),
   ("BGN".data, ("Lev bulgare", 'B')),
   ("DKK".data, ("Couronne danoise", 'D')),
   ("HUF".data, ("Forint hongrois", 'H')),
   ("ILS".data, ("Nouveau shekel israélien", 'I')),
   ("CZK".data, ("Couronne tchèque", 'K')),
   ("NOK".data, ("Couronne norvégienne", 'N')),
   ("RON".data, ("Leu roumain", 'R')),
   ("SEK".data, ("Couronne suédoise", 'S')),
   ("TRY".data, ("Livre turque", 'T')),
   ("CNY".data, ("Yuan chinois", 'Y')),
   ("PLN".data, ("Zloty polonais", 'Z')),
   ("ISK".data, ("Couronne islandaise", '1')),
   ("BRL".data, ("Réal brésilien", '2')),
   ("HKD".data, ("Dollar de Hong Kong", '3')),
   ("INR".data, ("Roupie indienne", '4')),
   ("KRW".data, ("Won sud-coréen", '5')),
   ("MXN".data, ("Peso mexicain", '6')),
   ("MYR".data, ("Ringgit malaisien", '7')),
   ("PHP".data, ("Peso philippin", '9')),
   ("SGD".data, ("Dollar de Singapour", 'W')),
   ("THB".data, ("Baht thaïlandais", 'X')),
   ("ZAR".data, ("Rand sud-africain", 'P')),
   ("IDR".data, ("Roupie indonésienne", 'Q'))]

/-- `BASE_ISO` (default `"EUR"`). -/
def BASE_ISO : List Char := "EUR".data

/-- Python `str.strip()` on both ends (whitespace removal). -/
def pyStrip (s : List Char) : List Char :=
  ((s.dropWhile Char.isWhitespace).reverse.dropWhile Char.isWhitespace).reverse

/-- Python `str.upper()`; on the ASCII inputs relevant here it is
`Char.toUpper` character-wise. -/
def pyUpper (s : List Char) : List Char := s.map Char.toUpper

/-- The regex `[A-Z]{3}` fullmatch of `_safe_iso` (`Char.isUpper` is
exactly membership in `A`–`Z`). -/
def matchIso3 (s : List Char) : Bool := s.length == 3 && s.all Char.isUpper

/-- `_safe_iso`: strip, uppercase, then require an exact `[A-Z]{3}` match
on the resulting string, which is also the returned value. -/
def safe_iso (s : List Char) : Except Err (List Char) :=
  if matchIso3 (pyUpper (pyStrip s)) then .ok (pyUpper (pyStrip s))
  else .error .invalidFormat

/-- The registry resolution performed by the code (`_safe_iso` followed by
the `PARITES_DICT` membership test of `_ensure_parites_row_for_target`),
returning the registry entry `(iso, label, code)`. -/
def resolve (s : List Char) : Except Err (List Char × String × Char) :=
  match safe_iso s with
  | .error e => .error e
  | .ok iso =>
    match PARITES_DICT.lookup iso with
    | some entry => .ok (iso, entry)
    | none => .error .unsupportedCurrency

/-- Round a rational to an integer, ties to even: the rounding performed by
`Decimal.quantize` under Python's default `ROUND_HALF_EVEN` context. -/
def roundHalfEven (q : ℚ) : ℤ :=
  if q - (⌊q⌋ : ℚ) < 1/2 then ⌊q⌋
  else if 1/2 < q - (⌊q⌋ : ℚ) then ⌊q⌋ + 1
  else if ⌊q⌋ % 2 = 0 then ⌊q⌋ else ⌊q⌋ + 1

/-- `x.quantize(Decimal("0.00000001"))`: round to 8 fractional digits. -/
def quantize8 (q : ℚ) : ℚ := (roundHalfEven (q * 10 ^ 8) : ℚ) / 10 ^ 8

/-- `(Decimal("1") / rate).quantize(Decimal("0.00000001"))`. -/
def inv8 (rate : ℚ) : ℚ := quantize8 (1 / rate)

/-- A row of table `parites` (`PARITES_CODE`, `PARITES_ISO`, `PARITES_LIB`). -/
structure CurrencyRow where
  code : Char
  iso : List Char
  lib : String
  deriving DecidableEq, Repr

/-- A row of table `parites_jour`
(`PARITES_CODE`, `PARITES_JOUR_DATE`, `PARITES_JOUR_TAUX`, `PARITES_JOUR_TAUX_DIV`). -/
structure DailyRow where
  code : Char
  date : Date
  rate : ℚ
  rateDiv : ℚ
  deriving DecidableEq, Repr

/-- The persisted state: the two tables created by `_ensure_tables`. -/
structure DB where
  parites : List CurrencyRow
  paritesJour : List DailyRow
  deriving DecidableEq, Repr

/-- `INSERT IGNORE INTO parites`: the insert is dropped when any key
collides — the primary key `PARITES_CODE` or the unique key `PARITES_ISO`. -/
def insertIgnore (tbl : List CurrencyRow) (r : CurrencyRow) : List CurrencyRow :=
  if tbl.any (fun q => q.code == r.code || q.iso == r.iso) then tbl else tbl ++ [r]

/-- `_ensure_parites_row_for_target`: re-validate the ISO code, require a
`PARITES_DICT` entry, `INSERT IGNORE` the registry row, then check by
`SELECT` that a row with the code exists; returns the one-character code. -/
def ensure_parites_row_for_target (tbl : List CurrencyRow) (target : List Char) :
    Except Err (List CurrencyRow × Char) :=
  match safe_iso target with
  | .error e => .error e
  | .ok iso =>
    match PARITES_DICT.lookup iso with
    | none => .error .unsupportedCurrency
    | some (lib, code) =>
      let tbl' := insertIgnore tbl ⟨code, iso, lib⟩
      if tbl'.any (fun q => q.code == code) then .ok (tbl', code)
      else .error .codeNotFound

/-- The composite primary key test of `parites_jour`:
`(PARITES_CODE, PARITES_JOUR_DATE) = (c, d)`. -/
def dayKey (c : Char) (d : Date) (r : DailyRow) : Bool := r.code == c && r.date == d

/-- One `INSERT ... ON DUPLICATE KEY UPDATE` into `parites_jour`: update
`TAUX`/`TAUX_DIV` in place when the composite key collides, insert otherwise. -/
def upsertOne (tbl : List DailyRow) (r : DailyRow) : List DailyRow :=
  if tbl.any (dayKey r.code r.date) then
    tbl.map (fun q => if dayKey r.code r.date q then r else q)
  else tbl ++ [r]

/-- `_upsert_parites_jour` (`executemany` of the upsert statement). -/
def upsert_parites_jour (tbl : List DailyRow) (rows : List DailyRow) : List DailyRow :=
  rows.foldl upsertOne tbl

/-- The parsed JSON body answered by the latest/historical endpoint:
the `rates` mapping (already decoded to rationals) and the optional
`date` field (already parsed; a missing or empty field is `none`). -/
structure LatestResp where
  rates : List (List Char × ℚ)
  date : Option Date
  deriving DecidableEq, Repr

/-- `_get_latest_rate`: require the target symbol in `rates`, then take the
response's date, falling back to `date_override` when the response has
none; fail if neither is available. -/
def get_latest_rate (resp : LatestResp) (target : List Char) (dateOverride : Option Date) :
    Except Err (Date × ℚ) :=
  match resp.rates.lookup target with
  | none => .error .upstreamMissingRate
  | some r =>
    match resp.date with
    | some d => .ok (d, r)
    | none =>
      match dateOverride with
      | some d => .ok (d, r)
      | none => .error .upstreamMissingDate

/-- `_get_timeseries_rates`: from the timeseries response (date → nested
symbol→rate object), keep the dates whose nested object contains the
target symbol; fail if nothing remains. -/
def get_timeseries_rates (resp : List (Date × List (List Char × ℚ))) (target : List Char) :
    Except Err (List (Date × ℚ)) :=
  let out := resp.filterMap (fun p => (p.2.lookup target).map (fun r => (p.1, r)))
  if out.isEmpty then .error .upstreamEmptyRange else .ok out

/-- Observable side effects of an import call, in order: the HTTP calls to
the upstream rate source and the storage connection/transaction steps. -/
inductive Event where
  | fetchLatest
  | fetchRange
  | connect
  | commit
  | rollback
  deriving DecidableEq, Repr

/-- The JSON object returned by `api_import_day` on success. -/
structure DayResult where
  base : List Char
  target : List Char
  paritesCode : Char
  rows : Nat
  deriving DecidableEq, Repr

/-- The JSON object returned by `api_import_range` on success. -/
structure RangeResult where
  base : List Char
  target : List Char
  paritesCode : Char
  rows : Nat
  fromDate : Date
  toDate : Date
  deriving DecidableEq, Repr

/-- `api_import_day` (`POST /api/import_day`): validate the ISO format,
fetch the single rate (before any storage connection), connect, ensure
schema, provision the `parites` row, fail on a zero rate, else upsert one
`parites_jour` row and commit.  Any failure after the connection rolls the
transaction back, leaving the state unchanged. -/
def api_import_day (resp : LatestResp) (db0 : DB) (target : List Char)
    (dateOverride : Option Date) : Except Err DayResult × DB × List Event :=
  match safe_iso target with
  | .error e => (.error e, db0, [])
  | .ok iso =>
    match get_latest_rate resp iso dateOverride with
    | .error e => (.error e, db0, [.fetchLatest])
    | .ok (d, rate) =>
      match ensure_parites_row_for_target db0.parites iso with
      | .error e => (.error e, db0, [.fetchLatest, .connect, .rollback])
      | .ok (par', code) =>
        if rate = 0 then
          (.error .zeroRate, db0, [.fetchLatest, .connect, .rollback])
        else
          let row : DailyRow := ⟨code, d, rate, inv8 rate⟩
          (.ok ⟨BASE_ISO, iso, code, 1⟩,
            ⟨par', upsert_parites_jour db0.paritesJour [row]⟩,
            [.fetchLatest, .connect, .commit])

/-- The row batch built by the loop of `api_import_range`:
`for d in sorted(rates.keys())`, skipping zero rates, computing the
quantized inverse for the others. -/
def buildRangeRows (code : Char) (rates : List (Date × ℚ)) : List DailyRow :=
  (List.insertionSort (· ≤ ·) (rates.map Prod.fst)).filterMap (fun d =>
    match rates.lookup d with
    | none => none
    | some rate => if rate = 0 then none else some ⟨code, d, rate, inv8 rate⟩)

/-- `api_import_range` (`POST /api/import_range`): validate the ISO format,
reject `end < start` before any network or storage call, fetch the
timeseries, connect, provision the `parites` row, build the batch (zero
rates skipped silently), upsert the batch and commit. -/
def api_import_range (resp : List (Date × List (List Char × ℚ))) (db0 : DB)
    (target : List Char) (start endD : Date) :
    Except Err RangeResult × DB × List Event :=
  match safe_iso target with
  | .error e => (.error e, db0, [])
  | .ok iso =>
    if endD < start then (.error .invalidRange, db0, [])
    else
      match get_timeseries_rates resp iso with
      | .error e => (.error e, db0, [.fetchRange])
      | .ok rates =>
        match ensure_parites_row_for_target db0.parites iso with
        | .error e => (.error e, db0, [.fetchRange, .connect, .rollback])
        | .ok (par', code) =>
          let rows := buildRangeRows code rates
          (.ok ⟨BASE_ISO, iso, code, rows.length, start, endD⟩,
            ⟨par', upsert_parites_jour db0.paritesJour rows⟩,
            [.fetchRange, .connect, .commit])

/-! ### Character-level groundwork -/

lemma isAlpha_of_isUpper {c : Char} (h : c.isUpper = true) : c.isAlpha = true := by
  simp [Char.isAlpha, h]

lemma not_isWhitespace_of_isUpper {c : Char} (h : c.isUpper = true) :
    c.isWhitespace = false := by
  simp only [Char.isUpper, ge_iff_le, Bool.and_eq_true, decide_eq_true_eq] at h
  simp only [Char.isWhitespace, Bool.or_eq_false_iff, decide_eq_false_iff_not]
  refine ⟨⟨⟨?_, ?_⟩, ?_⟩, ?_⟩ <;> rintro rfl <;> revert h <;> decide

lemma toUpper_eq_self_of_isUpper {c : Char} (h : c.isUpper = true) :
    c.toUpper = c := by
  simp only [Char.isUpper, ge_iff_le, Bool.and_eq_true, decide_eq_true_eq,
    UInt32.le_def, BitVec.le_def] at h
  unfold Char.toUpper
  rw [if_neg]
  intro hc
  have h1 : c.toNat = c.val.toBitVec.toNat := rfl
  have h2 : (UInt32.toBitVec 65).toNat = 65 := rfl
  have h3 : (UInt32.toBitVec 90).toNat = 90 := rfl
  omega

lemma isLower_of_toNat {c : Char} (h : c.toNat ≥ 97 ∧ c.toNat ≤ 122) :
    c.isLower = true := by
  simp only [Char.isLower, ge_iff_le, Bool.and_eq_true, decide_eq_true_eq,
    UInt32.le_def, BitVec.le_def]
  have h1 : c.toNat = c.val.toBitVec.toNat := rfl
  have h2 : (UInt32.toBitVec 97).toNat = 97 := rfl
  have h3 : (UInt32.toBitVec 122).toNat = 122 := rfl
  constructor <;> omega

lemma isAlpha_of_toUpper_isUpper {c : Char} (h : c.toUpper.isUpper = true) :
    c.isAlpha = true := by
  by_cases hc : c.toNat ≥ 97 ∧ c.toNat ≤ 122
  · simp [Char.isAlpha, isLower_of_toNat hc]
  · rw [show c.toUpper = c by unfold Char.toUpper; rw [if_neg hc]] at h
    exact isAlpha_of_isUpper h

/-! ### `strip` / `upper` groundwork -/

lemma dropWhile_eq_self_of_forall {p : Char → Bool} {l : List Char}
    (h : ∀ c ∈ l, p c = false) : l.dropWhile p = l := by
  cases l with
  | nil => rfl
  | cons a t =>
    exact List.dropWhile_cons_of_neg (by simp [h a (List.mem_cons_self a t)])

lemma pyStrip_eq_self {s : List Char} (h : ∀ c ∈ s, c.isWhitespace = false) :
    pyStrip s = s := by
  unfold pyStrip
  rw [dropWhile_eq_self_of_forall h,
    dropWhile_eq_self_of_forall (fun c hc => h c (List.mem_reverse.mp hc)),
    List.reverse_reverse]

lemma pyUpper_eq_self {s : List Char} (h : ∀ c ∈ s, c.isUpper = true) :
    pyUpper s = s := by
  unfold pyUpper
  rw [List.map_congr_left (fun c hc => toUpper_eq_self_of_isUpper (h c hc))]
  exact List.map_id' s

lemma safe_iso_ok_elim {s iso : List Char} (h : safe_iso s = .ok iso) :
    iso = pyUpper (pyStrip s) ∧ matchIso3 iso = true := by
  unfold safe_iso at h
  split at h
  · next hm => cases h; exact ⟨rfl, hm⟩
  · cases h

lemma matchIso3_isUpper {iso : List Char} (hm : matchIso3 iso = true) :
    ∀ c ∈ iso, c.isUpper = true := by
  have := (Bool.and_eq_true _ _).mp hm
  exact List.all_eq_true.mp this.2

lemma safe_iso_canon {s iso : List Char} (h : safe_iso s = .ok iso) :
    safe_iso iso = .ok iso := by
  obtain ⟨-, hm⟩ := safe_iso_ok_elim h
  have hup := matchIso3_isUpper hm
  have hs : pyStrip iso = iso :=
    pyStrip_eq_self (fun c hc => not_isWhitespace_of_isUpper (hup c hc))
  have hu : pyUpper iso = iso := pyUpper_eq_self hup
  unfold safe_iso
  rw [hs, hu, if_pos hm]

/-! ### Rounding groundwork -/

lemma abs_roundHalfEven_sub_le (q : ℚ) : |(roundHalfEven q : ℚ) - q| ≤ 1/2 := by
  have h0 : (⌊q⌋ : ℚ) ≤ q := Int.floor_le q
  have h1 : q < ⌊q⌋ + 1 := Int.lt_floor_add_one q
  unfold roundHalfEven
  split
  · next h => rw [abs_le]; constructor <;> linarith
  · next h =>
    split
    · next h' => rw [abs_le]; push_cast; constructor <;> linarith
    · next h' =>
      split <;> (rw [abs_le]; push_cast; constructor <;> linarith)

lemma abs_quantize8_sub_le (q : ℚ) : |quantize8 q - q| ≤ 1 / (2 * 10 ^ 8) := by
  unfold quantize8
  have h := abs_roundHalfEven_sub_le (q * 10 ^ 8)
  have e : (roundHalfEven (q * 10 ^ 8) : ℚ) / 10 ^ 8 - q
      = ((roundHalfEven (q * 10 ^ 8) : ℚ) - q * 10 ^ 8) / 10 ^ 8 := by ring
  rw [e, abs_div, abs_of_pos (by norm_num : (0:ℚ) < 10 ^ 8),
    show (1:ℚ) / (2 * 10 ^ 8) = (1/2) / 10 ^ 8 by norm_num]
  exact div_le_div_of_nonneg_right h (by norm_num)

/-! ### Upsert groundwork -/

lemma filter_map_upsert_of_countP_zero {p : DailyRow → Bool} {tbl : List DailyRow}
    (r : DailyRow) (h : tbl.countP p = 0) :
    (tbl.map (fun q => if p q then r else q)).filter p = [] := by
  induction tbl with
  | nil => rfl
  | cons x xs ih =>
    rw [List.countP_cons] at h
    have hx : p x = false := by
      cases hpx : p x
      · rfl
      · rw [hpx] at h; simp at h
    have hxs : xs.countP p = 0 := by rw [hx] at h; simpa using h
    simp only [List.map_cons, hx, Bool.false_eq_true, if_false, List.filter_cons, hx]
    exact ih hxs

lemma filter_map_upsert_of_countP_one {p : DailyRow → Bool} {tbl : List DailyRow}
    {r : DailyRow} (hr : p r = true) (h : tbl.countP p = 1) :
    (tbl.map (fun q => if p q then r else q)).filter p = [r] := by
  induction tbl with
  | nil => simp at h
  | cons x xs ih =>
    rw [List.countP_cons] at h
    cases hpx : p x
    · have hxs : xs.countP p = 1 := by rw [hpx] at h; simpa using h
      simp only [List.map_cons, hpx, Bool.false_eq_true, if_false, List.filter_cons, hpx]
      exact ih hxs
    · have hxs : xs.countP p = 0 := by rw [hpx] at h; simpa using h
      simp only [List.map_cons, hpx, if_true, List.filter_cons, hr]
      simpa [hr] using filter_map_upsert_of_countP_zero r hxs

lemma filter_upsertOne {tbl : List DailyRow} {r : DailyRow}
    (h : tbl.countP (dayKey r.code r.date) ≤ 1) :
    (upsertOne tbl r).filter (dayKey r.code r.date) = [r] := by
  have hr : dayKey r.code r.date r = true := by simp [dayKey]
  unfold upsertOne
  cases hany : tbl.any (dayKey r.code r.date)
  · rw [if_neg (by simp [hany])]
    have h0 : ∀ a ∈ tbl, ¬ dayKey r.code r.date a = true := by
      intro a ha hpa
      exact absurd (List.any_eq_true.mpr ⟨a, ha, hpa⟩) (by simp [hany])
    rw [List.filter_append, List.filter_eq_nil_iff.mpr h0, List.nil_append]
    simp [hr]
  · rw [if_pos (by simp [hany])]
    have h1 : tbl.countP (dayKey r.code r.date) = 1 := by
      obtain ⟨a, ha, hpa⟩ := List.any_eq_true.mp hany
      have : 0 < tbl.countP (dayKey r.code r.date) :=
        List.countP_pos_iff.mpr ⟨a, ha, hpa⟩
      omega
    exact filter_map_upsert_of_countP_one hr h1

lemma countP_upsertOne {tbl : List DailyRow} {r : DailyRow}
    (h : tbl.countP (dayKey r.code r.date) ≤ 1) :
    (upsertOne tbl r).countP (dayKey r.code r.date) = 1 := by
  rw [List.countP_eq_length_filter, filter_upsertOne h]
  rfl

/-! ### Registry-row groundwork -/

lemma insertIgnore_mem {tbl : List CurrencyRow} {r : CurrencyRow} :
    ∀ x ∈ tbl, x ∈ insertIgnore tbl r := by
  intro x hx
  unfold insertIgnore
  split
  · exact hx
  · exact List.mem_append_left _ hx

lemma insertIgnore_eq_of_code_mem {tbl : List CurrencyRow} {r : CurrencyRow}
    (h : ∃ q ∈ tbl, q.code = r.code) : insertIgnore tbl r = tbl := by
  unfold insertIgnore
  obtain ⟨q, hq, hc⟩ := h
  rw [if_pos (List.any_eq_true.mpr ⟨q, hq, by simp [hc]⟩)]

lemma ensure_ok_elim {tbl tbl' : List CurrencyRow} {t : List Char} {c : Char}
    (h : ensure_parites_row_for_target tbl t = .ok (tbl', c)) :
    ∃ iso lib, safe_iso t = .ok iso ∧ PARITES_DICT.lookup iso = some (lib, c) ∧
      tbl' = insertIgnore tbl ⟨c, iso, lib⟩ ∧
      tbl'.any (fun q => q.code == c) = true := by
  simp only [ensure_parites_row_for_target] at h
  split at h
  · cases h
  · next iso hsi =>
    split at h
    · cases h
    · next lib code hlk =>
      split at h
      · next hany =>
        cases h
        exact ⟨iso, lib, hsi, hlk, rfl, hany⟩
      · cases h

lemma ensure_of_code_present {tbl : List CurrencyRow} {iso : List Char}
    {lib : String} {code : Char}
    (hsafe : safe_iso iso = .ok iso)
    (hdict : PARITES_DICT.lookup iso = some (lib, code))
    (hany : tbl.any (fun q => q.code == code) = true) :
    ensure_parites_row_for_target tbl iso = .ok (tbl, code) := by
  obtain ⟨q, hq, hqc⟩ := List.any_eq_true.mp hany
  have heq : insertIgnore tbl ⟨code, iso, lib⟩ = tbl :=
    insertIgnore_eq_of_code_mem ⟨q, hq, by simpa using hqc⟩
  simp only [ensure_parites_row_for_target, hsafe, hdict, heq, hany, if_true]

/-! ### Claim theorems -/

/-- C7: for every pair of dates with `endDate < startDate` (and a
well-formed target), `importRange` fails with `InvalidRange` with an empty
effect trace — no network call, no storage connection — and the stored
state is returned unchanged. -/
theorem import_range_rejects_inverted_range
    (resp : List (Date × List (List Char × ℚ))) (db0 : DB)
    (target iso : List Char) (start endD : Date)
    (hsafe : safe_iso target = .ok iso) (h : endD < start) :
    api_import_range resp db0 target start endD = (.error .invalidRange, db0, []) := by
  simp only [api_import_range, hsafe]
  rw [if_pos h]

/-- Witness for C7 at a concrete input. -/
theorem import_range_rejects_inverted_range_witness :
    api_import_range [] ⟨[], []⟩ "USD".data 5 3 = (.error .invalidRange, ⟨[], []⟩, []) :=
  import_range_rejects_inverted_range [] ⟨[], []⟩ "USD".data "USD".data 5 3 rfl
    (by decide)

/-- C6 (amended): when the upstream response carries the requested rate but
no date, `fetchLatest` fails with the missing-date upstream error only when
no `asOfDate` override was supplied; with an override it falls back to the
override date and succeeds. -/
theorem get_latest_rate_missing_date
    (resp : LatestResp) (target : List Char) (r : ℚ) (od : Option Date)
    (hr : resp.rates.lookup target = some r) (hd : resp.date = none) :
    (od = none → get_latest_rate resp target od = .error .upstreamMissingDate)
    ∧ ∀ d, od = some d → get_latest_rate resp target od = .ok (d, r) := by
  constructor
  · rintro rfl
    simp only [get_latest_rate, hr, hd]
  · rintro d rfl
    simp only [get_latest_rate, hr, hd]

/-- Witness for C6 (amended) at a concrete input. -/
theorem get_latest_rate_missing_date_witness :
    get_latest_rate ⟨[("USD".data, 2)], none⟩ "USD".data none
      = .error .upstreamMissingDate :=
  (get_latest_rate_missing_date ⟨[("USD".data, 2)], none⟩ "USD".data 2 none
    rfl rfl).1 rfl

/-- C6 counterexample: the claim "fetchLatest fails whenever no date is
present in the response, including calls where an asOfDate was supplied"
is false — with a date-less response and an `asOfDate` override, the code
falls back to the override (`data.get("date") or date_override`) and
succeeds. -/
theorem get_latest_rate_missing_date_cex :
    get_latest_rate ⟨[("USD".data, 2)], none⟩ "USD".data (some 737791)
      = .ok (737791, 2)
    ∧ ∀ e : Err,
        get_latest_rate ⟨[("USD".data, 2)], none⟩ "USD".data (some 737791)
          ≠ .error e := by
  refine ⟨rfl, fun e h => ?_⟩
  rw [show get_latest_rate ⟨[("USD".data, 2)], none⟩ "USD".data (some 737791)
      = .ok (737791, 2) from rfl] at h
  cases h

/-- C4: the stored inverse rate is the exact decimal inverse rounded to
8 fractional digits, so `rate * inverseRate` differs from `1` by at most
the 8-decimal rounding tolerance `|rate| · 10⁻⁸ / 2`; and for upstream
rate `1.10500000` the stored inverse is `0.90497738`. -/
theorem inverse_rate_eight_decimals :
    (∀ rate : ℚ, rate ≠ 0 → |rate * inv8 rate - 1| ≤ |rate| / (2 * 10 ^ 8))
    ∧ inv8 (221/200) = 90497738 / 10 ^ 8 := by
  constructor
  · intro rate h
    have hq := abs_quantize8_sub_le (1 / rate)
    have e : rate * inv8 rate - 1 = rate * (quantize8 (1 / rate) - 1 / rate) := by
      rw [inv8, mul_sub, mul_one_div_cancel h]
    rw [e, abs_mul]
    calc |rate| * |quantize8 (1 / rate) - 1 / rate|
        ≤ |rate| * (1 / (2 * 10 ^ 8)) :=
          mul_le_mul_of_nonneg_left hq (abs_nonneg rate)
      _ = |rate| / (2 * 10 ^ 8) := by ring
  · norm_num [inv8, quantize8, roundHalfEven]

/-- Witness for C4 at the spec's concrete rate. -/
theorem inverse_rate_eight_decimals_witness :
    |(221/200 : ℚ) * inv8 (221/200) - 1| ≤ |(221/200 : ℚ)| / (2 * 10 ^ 8) :=
  inverse_rate_eight_decimals.1 (221/200) (by norm_num)

/-- C8: registry resolution fails with `InvalidFormat` for every input
whose stripped form is not exactly 3 alphabetic characters; resolution
depends only on the stripped upper-cased form (trimmed, case-insensitive);
and every supported ISO code resolves to its own registry entry. -/
theorem resolve_format_rules :
    (∀ s : List Char,
        ¬ ((pyStrip s).length = 3 ∧ ∀ c ∈ pyStrip s, c.isAlpha = true) →
        safe_iso s = .error .invalidFormat)
    ∧ (∀ s₁ s₂ : List Char, pyUpper (pyStrip s₁) = pyUpper (pyStrip s₂) →
        resolve s₁ = resolve s₂)
    ∧ (∀ e ∈ PARITES_DICT, resolve e.1 = .ok (e.1, e.2)) := by
  refine ⟨?_, ?_, ?_⟩
  · intro s h
    unfold safe_iso
    rw [if_neg]
    intro hm
    obtain ⟨hlen, hall⟩ := (Bool.and_eq_true _ _).mp hm
    refine h ⟨?_, ?_⟩
    · have hl : (pyUpper (pyStrip s)).length = 3 := by simpa using hlen
      simpa [pyUpper] using hl
    · intro c hc
      have hmem : c.toUpper ∈ pyUpper (pyStrip s) :=
        List.mem_map_of_mem Char.toUpper hc
      exact isAlpha_of_toUpper_isUpper (List.all_eq_true.mp hall _ hmem)
  · intro s₁ s₂ hcanon
    unfold resolve safe_iso
    rw [hcanon]
  · intro e he
    fin_cases he <;> rfl

/-- Witness for C8 at a concrete malformed input. -/
theorem resolve_format_rules_witness :
    safe_iso "US1".data = .error .invalidFormat :=
  resolve_format_rules.1 "US1".data (by decide)

/-- C3: in `importSingleDay` a fetched rate of zero is fatal: the call
fails with the zero-rate (division impossible) error, the transaction is
rolled back, and the stored tables come back unchanged — zero rows
written. -/
theorem import_day_zero_rate_fatal
    (resp : LatestResp) (db0 : DB) (target iso : List Char)
    (od : Option Date) (d : Date)
    (hsafe : safe_iso target = .ok iso)
    (hfetch : get_latest_rate resp iso od = .ok (d, 0))
    (hens : (ensure_parites_row_for_target db0.parites iso).isOk = true) :
    api_import_day resp db0 target od
      = (.error .zeroRate, db0, [.fetchLatest, .connect, .rollback]) := by
  simp only [api_import_day, hsafe, hfetch]
  cases hE : ensure_parites_row_for_target db0.parites iso with
  | error e => rw [hE] at hens; cases hens
  | ok p =>
    obtain ⟨par', code⟩ := p
    simp

/-- Witness for C3 at a concrete input. -/
theorem import_day_zero_rate_fatal_witness :
    api_import_day ⟨[("USD".data, 0)], some 5⟩ ⟨[], []⟩ "USD".data none
      = (.error .zeroRate, ⟨[], []⟩, [.fetchLatest, .connect, .rollback]) :=
  import_day_zero_rate_fatal ⟨[("USD".data, 0)], some 5⟩ ⟨[], []⟩
    "USD".data "USD".data none 5 rfl rfl rfl

/-- C5 (amended): in `importSingleDay` only the format validation precedes
the upstream fetch: a malformed target produces an empty effect trace, a
well-formed target always triggers the upstream fetch, and a well-formed
but unsupported target fails with `UnsupportedCurrency` only after the
fetch and the storage connection (which is then rolled back). -/
theorem import_day_fetch_before_registry_check
    (resp : LatestResp) (db0 : DB) (target : List Char) (od : Option Date) :
    (safe_iso target = .error .invalidFormat →
      api_import_day resp db0 target od
        = (.error .invalidFormat, db0, []))
    ∧ (∀ iso, safe_iso target = .ok iso →
        Event.fetchLatest ∈ (api_import_day resp db0 target od).2.2)
    ∧ (∀ iso d r, safe_iso target = .ok iso → PARITES_DICT.lookup iso = none →
        get_latest_rate resp iso od = .ok (d, r) →
        api_import_day resp db0 target od
          = (.error .unsupportedCurrency, db0, [.fetchLatest, .connect, .rollback])) := by
  refine ⟨?_, ?_, ?_⟩
  · intro h
    simp only [api_import_day, h]
  · intro iso h
    simp only [api_import_day, h]
    split
    · simp
    · next p heq =>
      obtain ⟨d, rate⟩ := p
      split
      · simp
      · next q hens =>
        obtain ⟨par', code⟩ := q
        split <;> simp
  · intro iso d r hs hlk hf
    have hcanon := safe_iso_canon hs
    have hens : ensure_parites_row_for_target db0.parites iso
        = .error .unsupportedCurrency := by
      simp only [ensure_parites_row_for_target, hcanon, hlk]
    simp only [api_import_day, hs, hf, hens]

/-- Witness for C5 (amended) at a concrete input. -/
theorem import_day_fetch_before_registry_check_witness :
    api_import_day ⟨[("XYZ".data, 2)], some 7⟩ ⟨[], []⟩ "XYZ".data none
      = (.error .unsupportedCurrency, ⟨[], []⟩, [.fetchLatest, .connect, .rollback]) :=
  (import_day_fetch_before_registry_check ⟨[("XYZ".data, 2)], some 7⟩ ⟨[], []⟩
    "XYZ".data none).2.2 "XYZ".data 7 2 rfl rfl rfl

/-- C5 counterexample: the claim "an unsupported target never triggers an
upstream fetch" is false — for the well-formed unsupported target `XYZ`
the call fails with `UnsupportedCurrency`, yet its effect trace contains
the upstream fetch (the registry-membership check runs only after the
fetch and the connection). -/
theorem import_day_unsupported_triggers_fetch_cex :
    (api_import_day ⟨[("XYZ".data, 2)], some 7⟩ ⟨[], []⟩ "XYZ".data none).1
      = .error .unsupportedCurrency
    ∧ Event.fetchLatest
        ∈ (api_import_day ⟨[("XYZ".data, 2)], some 7⟩ ⟨[], []⟩ "XYZ".data none).2.2 := by
  constructor
  · rfl
  · rw [show (api_import_day ⟨[("XYZ".data, 2)], some 7⟩ ⟨[], []⟩ "XYZ".data none).2.2
        = [.fetchLatest, .connect, .rollback] from rfl]
    simp

/-- C1: importing the same (currency, date) twice with two different
nonzero rates leaves exactly one `parites_jour` row for that composite
key, holding the rate and quantized inverse of the second import — the
upsert never accumulates duplicate rows. -/
theorem import_day_upsert_idempotent
    (db0 : DB) (iso : List Char) (lib : String) (code : Char)
    (d : Date) (r1 r2 : ℚ)
    (hsafe : safe_iso iso = .ok iso)
    (hdict : PARITES_DICT.lookup iso = some (lib, code))
    (hkey : db0.paritesJour.countP (dayKey code d) ≤ 1)
    (hens : (ensure_parites_row_for_target db0.parites iso).isOk = true)
    (h1 : r1 ≠ 0) (h2 : r2 ≠ 0) :
    ((api_import_day ⟨[(iso, r2)], some d⟩
        (api_import_day ⟨[(iso, r1)], some d⟩ db0 iso none).2.1
        iso none).2.1).paritesJour.filter (dayKey code d)
      = [⟨code, d, r2, inv8 r2⟩] := by
  have hfetch1 : get_latest_rate ⟨[(iso, r1)], some d⟩ iso none = .ok (d, r1) := by
    simp [get_latest_rate]
  have hfetch2 : get_latest_rate ⟨[(iso, r2)], some d⟩ iso none = .ok (d, r2) := by
    simp [get_latest_rate]
  cases hE : ensure_parites_row_for_target db0.parites iso with
  | error e => rw [hE] at hens; cases hens
  | ok p =>
    obtain ⟨par1, c⟩ := p
    obtain ⟨iso', lib', hsi, hlk, htbl, hany⟩ := ensure_ok_elim hE
    rw [hsafe] at hsi
    have hiso : iso = iso' := Except.ok.inj hsi
    subst hiso
    rw [hdict] at hlk
    have hpair := Option.some.inj hlk
    injection hpair with hlib hcode
    subst hlib
    subst hcode
    have e1 : (api_import_day ⟨[(iso, r1)], some d⟩ db0 iso none).2.1
        = ⟨par1, upsertOne db0.paritesJour ⟨code, d, r1, inv8 r1⟩⟩ := by
      simp only [api_import_day, hsafe, hfetch1, hE]
      rw [if_neg h1]
      rfl
    have hens2 : ensure_parites_row_for_target par1 iso = .ok (par1, code) :=
      ensure_of_code_present hsafe hdict hany
    have e2 : (api_import_day ⟨[(iso, r2)], some d⟩
          (⟨par1, upsertOne db0.paritesJour ⟨code, d, r1, inv8 r1⟩⟩ : DB) iso none).2.1
        = ⟨par1, upsertOne (upsertOne db0.paritesJour ⟨code, d, r1, inv8 r1⟩)
            ⟨code, d, r2, inv8 r2⟩⟩ := by
      simp only [api_import_day, hsafe, hfetch2, hens2]
      rw [if_neg h2]
      rfl
    rw [e1, e2]
    have hc1 : (upsertOne db0.paritesJour ⟨code, d, r1, inv8 r1⟩).countP
        (dayKey code d) = 1 :=
      @countP_upsertOne db0.paritesJour ⟨code, d, r1, inv8 r1⟩ hkey
    exact @filter_upsertOne (upsertOne db0.paritesJour ⟨code, d, r1, inv8 r1⟩)
      ⟨code, d, r2, inv8 r2⟩ (le_of_eq hc1)

/-- Witness for C1 at a concrete input. -/
theorem import_day_upsert_idempotent_witness :
    ((api_import_day ⟨[("USD".data, 3)], some 0⟩
        (api_import_day ⟨[("USD".data, 2)], some 0⟩ ⟨[], []⟩ "USD".data none).2.1
        "USD".data none).2.1).paritesJour.filter (dayKey '$' 0)
      = [⟨'$', 0, 3, inv8 3⟩] :=
  import_day_upsert_idempotent ⟨[], []⟩ "USD".data "Dollar américain" '$' 0 2 3
    rfl rfl (by decide) rfl (by norm_num) (by norm_num)

/-! ### Range-import groundwork -/

lemma lookup_mem_of_eq_some {l : List (Date × ℚ)} {k : Date} {v : ℚ}
    (h : l.lookup k = some v) : (k, v) ∈ l := by
  obtain ⟨l₁, l₂, rfl, -⟩ := List.lookup_eq_some_iff.mp h
  exact List.mem_append_right _ (List.mem_cons_self _ _)

lemma lookup_of_nodup_mem {l : List (Date × ℚ)} {k : Date} {v : ℚ}
    (hnd : (l.map Prod.fst).Nodup) (h : (k, v) ∈ l) : l.lookup k = some v := by
  induction l with
  | nil => cases h
  | cons a tl ih =>
    obtain ⟨a1, a2⟩ := a
    rw [List.map_cons, List.nodup_cons] at hnd
    rcases List.mem_cons.mp h with heq | hmem
    · injection heq with h1 h2
      subst h1
      subst h2
      exact List.lookup_cons_self
    · have hk : (k == a1) = false := by
        refine beq_eq_false_iff_ne.mpr ?_
        intro hka
        have hkm : k ∈ List.map Prod.fst tl := List.mem_map_of_mem Prod.fst hmem
        exact hnd.1 (hka ▸ hkm)
      rw [List.lookup_cons, hk]
      exact ih hnd.2 hmem

lemma map_date_filterMap (code : Char) (rates : List (Date × ℚ)) (L : List Date) :
    ((L.filterMap (fun d =>
        match rates.lookup d with
        | none => none
        | some rate =>
          if rate = 0 then none else some (⟨code, d, rate, inv8 rate⟩ : DailyRow))).map
          (fun r => r.date))
      = L.filter (fun d =>
          match rates.lookup d with
          | none => false
          | some rate => !(rate == 0)) := by
  induction L with
  | nil => rfl
  | cons a L ih =>
    rw [List.filterMap_cons, List.filter_cons]
    cases hlk : rates.lookup a with
    | none => simpa using ih
    | some r =>
      by_cases hr : r = 0
      · have hb : (!(r == 0)) = false := by simp [hr]
        simp only [if_pos hr, hb, Bool.false_eq_true, if_false]
        exact ih
      · have hb : (!(r == 0)) = true := by simp [hr]
        simp only [if_neg hr, hb, if_true, List.map_cons]
        rw [ih]

lemma buildRangeRows_dates (code : Char) (rates : List (Date × ℚ)) :
    (buildRangeRows code rates).map (fun r => r.date)
      = (List.insertionSort (· ≤ ·) (rates.map Prod.fst)).filter
          (fun d => match rates.lookup d with
            | none => false
            | some rate => !(rate == 0)) :=
  map_date_filterMap code rates _

lemma buildRangeRows_sorted (code : Char) (rates : List (Date × ℚ)) :
    ((buildRangeRows code rates).map (fun r => r.date)).Sorted (· ≤ ·) := by
  rw [buildRangeRows_dates]
  exact List.Pairwise.sublist (List.filter_sublist _) (List.sorted_insertionSort _ _)

lemma length_buildRangeRows (code : Char) {rates : List (Date × ℚ)}
    (hnd : (rates.map Prod.fst).Nodup) :
    (buildRangeRows code rates).length = rates.countP (fun p => !(p.2 == 0)) := by
  have h1 := congrArg List.length (buildRangeRows_dates code rates)
  rw [List.length_map] at h1
  rw [h1, ← List.countP_eq_length_filter,
    (List.perm_insertionSort _ _).countP_eq, List.countP_map]
  refine List.countP_congr ?_
  intro p hp
  have hl := lookup_of_nodup_mem hnd (show (p.1, p.2) ∈ rates by simpa using hp)
  simp [Function.comp, hl]

lemma buildRangeRows_zero_skipped {code : Char} {rates : List (Date × ℚ)}
    (hnd : (rates.map Prod.fst).Nodup) :
    ∀ p ∈ rates, p.2 = 0 → ∀ row ∈ buildRangeRows code rates, row.date ≠ p.1 := by
  intro p hp hz row hrow hdate
  unfold buildRangeRows at hrow
  obtain ⟨d, hd, hfd⟩ := List.mem_filterMap.mp hrow
  split at hfd
  · cases hfd
  · next rate hlk =>
    split at hfd
    · cases hfd
    · next hr =>
      cases Option.some.inj hfd
      have hdp : d = p.1 := hdate
      subst hdp
      have hl := lookup_of_nodup_mem hnd (show (p.1, p.2) ∈ rates by simpa using hp)
      rw [hl] at hlk
      exact hr ((Option.some.inj hlk).symm.trans hz)

lemma buildRangeRows_all_zero {code : Char} {rates : List (Date × ℚ)}
    (hz : ∀ p ∈ rates, p.2 = 0) : buildRangeRows code rates = [] := by
  unfold buildRangeRows
  rw [List.filterMap_eq_nil_iff]
  intro d hd
  cases hlk : rates.lookup d with
  | none => rfl
  | some r =>
    have h0 : r = 0 := hz (d, r) (lookup_mem_of_eq_some hlk)
    show (if r = 0 then none
      else some (⟨code, d, r, inv8 r⟩ : DailyRow)) = none
    rw [if_pos h0]

/-- C2: `importRange` processes the fetched dates in ascending order,
silently skips every zero-rate date without aborting the batch, commits,
and reports as `rows` exactly the number of non-zero-rate dates; in the
3-day scenario with a zero rate on the middle day, 2 rows are written and
no row exists for the zero-rate date. -/
theorem import_range_skips_zero_rates
    (resp : List (Date × List (List Char × ℚ))) (db0 : DB)
    (target iso : List Char) (start endD : Date)
    (rates : List (Date × ℚ)) (par' : List CurrencyRow) (code : Char)
    (hsafe : safe_iso target = .ok iso) (hrange : ¬ endD < start)
    (hfetch : get_timeseries_rates resp iso = .ok rates)
    (hnd : (rates.map Prod.fst).Nodup)
    (hensE : ensure_parites_row_for_target db0.parites iso = .ok (par', code)) :
    api_import_range resp db0 target start endD
      = (.ok ⟨BASE_ISO, iso, code, rates.countP (fun p => !(p.2 == 0)), start, endD⟩,
         ⟨par', upsert_parites_jour db0.paritesJour (buildRangeRows code rates)⟩,
         [.fetchRange, .connect, .commit])
    ∧ ((buildRangeRows code rates).map (fun r => r.date)).Sorted (· ≤ ·)
    ∧ (∀ p ∈ rates, p.2 = 0 → ∀ row ∈ buildRangeRows code rates, row.date ≠ p.1)
    ∧ (api_import_range
          [(1, [("GBP".data, 2)]), (2, [("GBP".data, 0)]), (3, [("GBP".data, 3)])]
          ⟨[], []⟩ "GBP".data 1 3).1
        = .ok ⟨BASE_ISO, "GBP".data, 'L', 2, 1, 3⟩
    ∧ ((api_import_range
          [(1, [("GBP".data, 2)]), (2, [("GBP".data, 0)]), (3, [("GBP".data, 3)])]
          ⟨[], []⟩ "GBP".data 1 3).2.1).paritesJour
        = [⟨'L', 1, 2, inv8 2⟩, ⟨'L', 3, 3, inv8 3⟩] := by
  refine ⟨?_, buildRangeRows_sorted code rates, buildRangeRows_zero_skipped hnd, rfl, rfl⟩
  simp only [api_import_range, hsafe]
  rw [if_neg hrange]
  simp only [hfetch, hensE, length_buildRangeRows code hnd]

/-- Witness for C2 at a concrete input (the spec's 3-day scenario). -/
theorem import_range_skips_zero_rates_witness :
    api_import_range
        [(1, [("GBP".data, 2)]), (2, [("GBP".data, 0)]), (3, [("GBP".data, 3)])]
        ⟨[], []⟩ "GBP".data 1 3
      = (.ok ⟨BASE_ISO, "GBP".data, 'L',
            [((1:Date), (2:ℚ)), (2, 0), (3, 3)].countP (fun p => !(p.2 == 0)), 1, 3⟩,
         ⟨[⟨'L', "GBP".data, "Livre sterling"⟩],
          upsert_parites_jour []
            (buildRangeRows 'L' [((1:Date), (2:ℚ)), (2, 0), (3, 3)])⟩,
         [.fetchRange, .connect, .commit]) :=
  (import_range_skips_zero_rates
    [(1, [("GBP".data, 2)]), (2, [("GBP".data, 0)]), (3, [("GBP".data, 3)])]
    ⟨[], []⟩ "GBP".data "GBP".data 1 3 [(1, 2), (2, 0), (3, 3)]
    [⟨'L', "GBP".data, "Livre sterling"⟩] 'L'
    rfl (by decide) rfl (by decide) rfl).1

/-- C10: when the fetched timeseries mapping is non-empty but every rate is
zero, `importRange` skips every date, performs an empty batch upsert,
commits, and returns success with `rows = 0` — the daily-rate table is
unchanged and no error is raised. -/
theorem import_range_all_zero_rates
    (resp : List (Date × List (List Char × ℚ))) (db0 : DB)
    (target iso : List Char) (start endD : Date)
    (rates : List (Date × ℚ)) (par' : List CurrencyRow) (code : Char)
    (hsafe : safe_iso target = .ok iso) (hrange : ¬ endD < start)
    (hfetch : get_timeseries_rates resp iso = .ok rates)
    (hne : rates ≠ [])
    (hz : ∀ p ∈ rates, p.2 = 0)
    (hensE : ensure_parites_row_for_target db0.parites iso = .ok (par', code)) :
    api_import_range resp db0 target start endD
      = (.ok ⟨BASE_ISO, iso, code, 0, start, endD⟩,
         ⟨par', db0.paritesJour⟩, [.fetchRange, .connect, .commit]) := by
  simp only [api_import_range, hsafe]
  rw [if_neg hrange]
  simp only [hfetch, hensE, buildRangeRows_all_zero hz]
  rfl

/-- Witness for C10 at a concrete input. -/
theorem import_range_all_zero_rates_witness :
    api_import_range [(1, [("USD".data, 0)]), (2, [("USD".data, 0)])]
        ⟨[], [⟨'$', 9, 2, 3⟩]⟩ "USD".data 1 2
      = (.ok ⟨BASE_ISO, "USD".data, '$', 0, 1, 2⟩,
         ⟨[⟨'$', "USD".data, "Dollar américain"⟩], [⟨'$', 9, 2, 3⟩]⟩,
         [.fetchRange, .connect, .commit]) :=
  import_range_all_zero_rates [(1, [("USD".data, 0)]), (2, [("USD".data, 0)])]
    ⟨[], [⟨'$', 9, 2, 3⟩]⟩ "USD".data "USD".data 1 2 [(1, 0), (2, 0)]
    [⟨'$', "USD".data, "Dollar américain"⟩] '$'
    rfl (by decide) rfl (List.cons_ne_nil _ _) (by decide) rfl

/-! ### Currency-row frame groundwork -/

lemma ensure_ok_mem {tbl tbl' : List CurrencyRow} {t : List Char} {c : Char}
    (h : ensure_parites_row_for_target tbl t = .ok (tbl', c)) :
    ∀ x ∈ tbl, x ∈ tbl' := by
  obtain ⟨iso, lib, -, -, htbl, -⟩ := ensure_ok_elim h
  rw [htbl]
  exact insertIgnore_mem

lemma import_day_parites_superset (resp : LatestResp) (db0 : DB)
    (target : List Char) (od : Option Date) :
    ∀ x ∈ db0.parites, x ∈ (api_import_day resp db0 target od).2.1.parites := by
  intro x hx
  unfold api_import_day
  split
  · exact hx
  · split
    · exact hx
    · split
      · exact hx
      · next par' code hens =>
        split
        · exact hx
        · exact ensure_ok_mem hens x hx

lemma import_range_parites_superset (resp : List (Date × List (List Char × ℚ)))
    (db0 : DB) (target : List Char) (start endD : Date) :
    ∀ x ∈ db0.parites, x ∈ (api_import_range resp db0 target start endD).2.1.parites := by
  intro x hx
  unfold api_import_range
  split
  · exact hx
  · split
    · exact hx
    · split
      · exact hx
      · split
        · exact hx
        · next par' code hens => exact ensure_ok_mem hens x hx

lemma import_day_parites_frozen (resp : LatestResp) (db0 : DB)
    (target iso : List Char) (od : Option Date) (lib : String) (code : Char)
    (hsafe : safe_iso target = .ok iso)
    (hdict : PARITES_DICT.lookup iso = some (lib, code))
    (hex : ∃ q ∈ db0.parites, q.code = code) :
    (api_import_day resp db0 target od).2.1.parites = db0.parites := by
  obtain ⟨q, hq, hqc⟩ := hex
  have hany : db0.parites.any (fun r => r.code == code) = true :=
    List.any_eq_true.mpr ⟨q, hq, by simp [hqc]⟩
  have hens := ensure_of_code_present (safe_iso_canon hsafe) hdict hany
  simp only [api_import_day, hsafe]
  split
  · rfl
  · simp only [hens]
    split
    · rfl
    · rfl

lemma import_range_parites_frozen (resp : List (Date × List (List Char × ℚ)))
    (db0 : DB) (target iso : List Char) (start endD : Date)
    (lib : String) (code : Char)
    (hsafe : safe_iso target = .ok iso)
    (hdict : PARITES_DICT.lookup iso = some (lib, code))
    (hex : ∃ q ∈ db0.parites, q.code = code) :
    (api_import_range resp db0 target start endD).2.1.parites = db0.parites := by
  obtain ⟨q, hq, hqc⟩ := hex
  have hany : db0.parites.any (fun r => r.code == code) = true :=
    List.any_eq_true.mpr ⟨q, hq, by simp [hqc]⟩
  have hens := ensure_of_code_present (safe_iso_canon hsafe) hdict hany
  simp only [api_import_range, hsafe]
  split
  · rfl
  · split
    · rfl
    · simp only [hens]

/-- C9: provisioning of the `parites` table is insert-if-absent: no import
ever removes a currency row (every pre-existing row survives both import
operations), and when a row with the target's one-character code already
exists the table is left entirely unchanged — its iso and label are never
overwritten. -/
theorem currency_rows_insert_if_absent
    (resp : LatestResp) (resp2 : List (Date × List (List Char × ℚ)))
    (db0 : DB) (target : List Char) (od : Option Date) (start endD : Date) :
    (∀ x ∈ db0.parites, x ∈ (api_import_day resp db0 target od).2.1.parites)
    ∧ (∀ x ∈ db0.parites,
        x ∈ (api_import_range resp2 db0 target start endD).2.1.parites)
    ∧ (∀ iso lib code, safe_iso target = .ok iso →
        PARITES_DICT.lookup iso = some (lib, code) →
        (∃ q ∈ db0.parites, q.code = code) →
        (api_import_day resp db0 target od).2.1.parites = db0.parites
        ∧ (api_import_range resp2 db0 target start endD).2.1.parites
            = db0.parites) :=
  ⟨import_day_parites_superset resp db0 target od,
   import_range_parites_superset resp2 db0 target start endD,
   fun iso lib code hsafe hdict hex =>
     ⟨import_day_parites_frozen resp db0 target iso od lib code hsafe hdict hex,
      import_range_parites_frozen resp2 db0 target iso start endD lib code
        hsafe hdict hex⟩⟩

/-- Witness for C9 at a concrete input: a pre-existing `parites` row with
the dollar code (and a divergent label) survives a repeated import
unchanged. -/
theorem currency_rows_insert_if_absent_witness :
    (api_import_day ⟨[("USD".data, 2)], some 4⟩
        ⟨[⟨'$', "USD".data, "Ancien libellé"⟩], []⟩ "USD".data none).2.1.parites
      = [⟨'$', "USD".data, "Ancien libellé"⟩]
    ∧ (api_import_range [(1, [("USD".data, 2)])]
        ⟨[⟨'$', "USD".data, "Ancien libellé"⟩], []⟩ "USD".data 1 1).2.1.parites
      = [⟨'$', "USD".data, "Ancien libellé"⟩] :=
  (currency_rows_insert_if_absent ⟨[("USD".data, 2)], some 4⟩
      [(1, [("USD".data, 2)])] ⟨[⟨'$', "USD".data, "Ancien libellé"⟩], []⟩
      "USD".data none 1 1).2.2
    "USD".data "Dollar américain" '$' rfl rfl
    ⟨⟨'$', "USD".data, "Ancien libellé"⟩, List.mem_cons_self _ _, rfl⟩
